import Mathlib

/-!
Verification of the MemLens middleware explorer core
(`src/middleware/controllers/explorer.js`): the delta codec, the SQLite
cache reader `getDataFromCache`, the API client `getDataFromApi`, and the
orchestrator `getEncodedBlocks`.

Query parameters arrive through `parseInt`; a missing or unparsable
parameter yields `NaN`.  We model a parsed parameter as `Option Int`
(`none` = `NaN`).  External effects (the SQLite table, the remote axios
endpoint, the timestamp parser from `utils/time.js`) are modelled as an
explicit environment record.
-/

namespace MemLens

/-- One time-series observation: `{ epoch, volume }` as built at
`explorer.js` lines 149-154 and 244-249. -/
structure Sample where
  epoch : Int
  volume : Int
deriving DecidableEq, Repr

/-- Modelled from the spec: the codec lives in `utils/encoding.js`, which is
not part of the excerpted source.  Per spec section 3, an `EncodedSeries`
separates a base representation of the first sample from a sequence of
deltas for subsequent samples, together with length metadata that `decode`
checks. -/
structure EncodedSeries where
  count : Nat
  base : Option Sample
  deltas : List (Int × Int)
deriving DecidableEq, Repr

/-- Deltas of a sample list relative to a preceding absolute sample:
`(epoch i - epoch (i-1), volume i - volume (i-1))`, signed. -/
def deltasFrom : Sample → List Sample → List (Int × Int)
  | _, [] => []
  | prev, s :: rest => (s.epoch - prev.epoch, s.volume - prev.volume) :: deltasFrom s rest

/-- Modelled from the spec: `applyDeltaEncoding` of `utils/encoding.js`
(not under the excerpted source).  Spec section 4.1: the first element is
stored as an absolute base pair; each later element contributes signed
deltas; the empty sequence yields a degenerate series. -/
def applyDeltaEncoding : List Sample → EncodedSeries
  | [] => ⟨0, none, []⟩
  | s :: rest => ⟨rest.length + 1, some s, deltasFrom s rest⟩

/-- Accumulate deltas onto a running absolute sample. -/
def accumulateDeltas : Sample → List (Int × Int) → List Sample
  | _, [] => []
  | prev, (de, dv) :: rest =>
      let cur : Sample := ⟨prev.epoch + de, prev.volume + dv⟩
      cur :: accumulateDeltas cur rest

/-- Modelled from the spec: `decodeDeltaEncoding` of `utils/encoding.js`
(not under the excerpted source).  Spec section 4.1: reconstructs by
accumulating deltas onto the base and fails with a `MalformedSeries` error
when the delta count does not match the declared length. -/
def decodeDeltaEncoding (series : EncodedSeries) : Except String (List Sample) :=
  match series.base with
  | none =>
      if series.count = 0 ∧ series.deltas = [] then .ok []
      else .error "MalformedSeries"
  | some b =>
      if series.count = series.deltas.length + 1 then
        .ok (b :: accumulateDeltas b series.deltas)
      else .error "MalformedSeries"

theorem accumulateDeltas_deltasFrom (rest : List Sample) :
    ∀ prev : Sample, accumulateDeltas prev (deltasFrom prev rest) = rest := by
  induction rest with
  | nil => intro prev; rfl
  | cons s r ih =>
      intro prev
      have hs : (⟨prev.epoch + (s.epoch - prev.epoch),
          prev.volume + (s.volume - prev.volume)⟩ : Sample) = s := by
        cases s; simp only [Sample.mk.injEq]; constructor <;> ring
      simp only [deltasFrom, accumulateDeltas, hs, ih s]

theorem deltasFrom_length (rest : List Sample) :
    ∀ prev : Sample, (deltasFrom prev rest).length = rest.length := by
  induction rest with
  | nil => intro prev; rfl
  | cons s r ih => intro prev; simp [deltasFrom, ih s]

/-- Helper: decoding an encoded sequence recovers it exactly. -/
theorem decode_encode (s : List Sample) :
    decodeDeltaEncoding (applyDeltaEncoding s) = .ok s := by
  cases s with
  | nil => rfl
  | cons a rest =>
      simp only [applyDeltaEncoding, decodeDeltaEncoding, deltasFrom_length,
        accumulateDeltas_deltasFrom, if_true, if_pos trivial]

/-- C1: for every finite ordered sequence of `Sample`, including the empty
and the single-element sequence, decoding the result of encoding the
sequence reproduces it exactly: `decode (encode s) = s`. -/
theorem c1_decode_encode_roundtrip (s : List Sample) :
    decodeDeltaEncoding (applyDeltaEncoding s) = Except.ok s :=
  decode_encode s

/-- One row of the SQLite `transactions` table as selected at
`explorer.js` lines 194-207: `block_id`, nullable `volume`, `created_at`. -/
structure Row where
  block_id : Int
  volume : Option Int
  created_at : String
deriving DecidableEq, Repr

/-- One transaction of a remote block record (`explorer.js` lines 21-26). -/
structure Transaction where
  cmd : String
  key : String
  value : String
deriving DecidableEq, Repr

/-- One remote block record (`explorer.js` lines 28-36); `transactions`
is optional because the code guards it with `record?.transactions?`. -/
structure Block where
  id : Int
  number : String
  transactions : Option (List Transaction)
  size : Int
  createdAt : String
deriving DecidableEq, Repr

/-- External effects of one request.  `cache` is the outcome `db.all`
delivers for the whole `transactions` table (error, or its rows); `api` is
the outcome of the axios GET on `/v1/blocks/a/b` (`Except` errors model
network or non-2xx failures; `Option` is `none` when `response?.data` is
not an array); `parseTime` models `parseTimeToUnixEpoch` from
`utils/time.js`, which is not part of the excerpted source — modelled from
the spec as a conversion of a timestamp string to a unix-epoch integer,
kept fallible because it is called inside try blocks. -/
structure Env where
  cache : Except String (List Row)
  api : Int → Int → Except String (Option (List Block))
  parseTime : String → Except String Int

/-- Ascending comparison on `block_id`, the `ORDER BY block_id ASC` key. -/
def rowLe (r₁ r₂ : Row) : Prop := r₁.block_id ≤ r₂.block_id

instance : DecidableRel rowLe := fun r₁ r₂ => Int.decLe r₁.block_id r₂.block_id

instance : IsTotal Row rowLe := ⟨fun r₁ r₂ => Int.le_total r₁.block_id r₂.block_id⟩

instance : IsTrans Row rowLe := ⟨fun _ _ _ h₁ h₂ => le_trans h₁ h₂⟩

/-- The `WHERE block_id BETWEEN start AND end` predicate (inclusive). -/
def rowInRange (a b : Int) (r : Row) : Bool :=
  decide (a ≤ r.block_id) && decide (r.block_id ≤ b)

/-- `getDataFromCache` (`explorer.js` lines 187-218): with two valid
bounds, `SELECT ... WHERE block_id BETWEEN ? AND ? ORDER BY block_id ASC`;
otherwise `SELECT ... ORDER BY block_id ASC LIMIT 100`.  A storage error
rejects the promise. -/
def getDataFromCache (env : Env) (s e : Option Int) : Except String (List Row) :=
  match env.cache with
  | .error msg => .error msg
  | .ok rows =>
      match s, e with
      | some a, some b => .ok (List.insertionSort rowLe (rows.filter (rowInRange a b)))
      | _, _ => .ok ((List.insertionSort rowLe rows).take 100)

/-- The block range `getDataFromApi` requests (`explorer.js` lines
228-232): the given bounds when both parse, else the fixed `1/100`. -/
def apiRequestRange (s e : Option Int) : Int × Int :=
  match s, e with
  | some a, some b => (a, b)
  | _, _ => (1, 100)

/-- Conversion of one remote record (`explorer.js` lines 244-249):
`epoch = parseTimeToUnixEpoch(record?.createdAt)` and
`volume = record?.transactions?.length || 0`. -/
def blockToSample (pt : String → Except String Int) (b : Block) : Except String Sample :=
  match pt b.createdAt with
  | .error msg => .error msg
  | .ok ep => .ok ⟨ep, ((b.transactions.getD []).length : Int)⟩

/-- Elementwise conversion of the remote array, stopping at the first
thrown conversion error, as `Array.prototype.map` would. -/
def samplesOfBlocks (pt : String → Except String Int) : List Block → Except String (List Sample)
  | [] => .ok []
  | b :: rest =>
      match blockToSample pt b with
      | .error msg => .error msg
      | .ok smp =>
          match samplesOfBlocks pt rest with
          | .error msg => .error msg
          | .ok others => .ok (smp :: others)

/-- `getDataFromApi` (`explorer.js` lines 227-250): requests
`/v1/blocks/start/end` when both bounds are valid, else `/v1/blocks/1/100`;
rethrows axios failures; calling `.map` on a non-array `response?.data`
throws a TypeError; otherwise maps each record to a `Sample`. -/
def getDataFromApi (env : Env) (s e : Option Int) : Except String (List Sample) :=
  match env.api (apiRequestRange s e).1 (apiRequestRange s e).2 with
  | .error msg => .error msg
  | .ok none => .error "data.map is not a function"
  | .ok (some blocks) => samplesOfBlocks env.parseTime blocks

/-- Conversion of one cache row (`explorer.js` lines 149-154):
`epoch = parseTimeToUnixEpoch(record.created_at)` and
`volume = record.volume || 0` (a NULL volume becomes 0). -/
def rowToSample (pt : String → Except String Int) (r : Row) : Except String Sample :=
  match pt r.created_at with
  | .error msg => .error msg
  | .ok ep => .ok ⟨ep, r.volume.getD 0⟩

/-- Elementwise conversion of the cache rows, stopping at the first
thrown conversion error, as `Array.prototype.map` would. -/
def samplesOfRows (pt : String → Except String Int) : List Row → Except String (List Sample)
  | [] => .ok []
  | r :: rest =>
      match rowToSample pt r with
      | .error msg => .error msg
      | .ok smp =>
          match samplesOfRows pt rest with
          | .error msg => .error msg
          | .ok others => .ok (smp :: others)

/-- The response body of `getEncodedBlocks`: `isCached` is `some true`
when the object spread `{ isCached: true, ...modifiedData }` ran (cache
hit), absent (`none`) on the API fallback path. -/
structure Envelope where
  isCached : Option Bool
  series : EncodedSeries
deriving DecidableEq, Repr

/-- What is sent back over HTTP: a 200 body or the 500
`{ error, details }` object of `explorer.js` lines 173-176. -/
inductive Result where
  | ok (body : Envelope)
  | serverError (error : String) (details : String)
deriving DecidableEq, Repr

/-- The first try block of `getEncodedBlocks` (`explorer.js` lines
143-166): read the cache; on at least one row, map rows to samples,
delta-encode and respond with `isCached: true`; on zero rows fall
through (`.ok none`); any exception inside the block is the `.error`
case. -/
def cacheBranch (env : Env) (s e : Option Int) : Except String (Option Envelope) :=
  match getDataFromCache env s e with
  | .error msg => .error msg
  | .ok rows =>
      if rows.length > 0 then
        match samplesOfRows env.parseTime rows with
        | .error msg => .error msg
        | .ok samples => .ok (some ⟨some true, applyDeltaEncoding samples⟩)
      else .ok none

/-- The second try block of `getEncodedBlocks` (`explorer.js` lines
167-177): fetch from the API, delta-encode and respond without
`isCached`; on failure respond 500 with the failure message as
`details`. -/
def fallbackOnly (env : Env) (s e : Option Int) : Result :=
  match getDataFromApi env s e with
  | .ok samples => .ok ⟨none, applyDeltaEncoding samples⟩
  | .error msg => .serverError "Failed to fetch block data" msg

/-- `getEncodedBlocks` (`explorer.js` lines 139-178): the cache branch
result is returned when it responded; a cache miss or a caught
cache-branch exception falls through to the API fallback. -/
def getEncodedBlocks (env : Env) (s e : Option Int) : Result :=
  match cacheBranch env s e with
  | .ok (some envl) => .ok envl
  | .ok none => fallbackOnly env s e
  | .error _ => fallbackOnly env s e

/-- Ascending comparison of samples by `epoch`. -/
def epochLe (s₁ s₂ : Sample) : Prop := s₁.epoch ≤ s₂.epoch

instance : DecidableRel epochLe := fun s₁ s₂ => Int.decLe s₁.epoch s₂.epoch

theorem applyDeltaEncoding_count (samples : List Sample) :
    (applyDeltaEncoding samples).count = samples.length := by
  cases samples with
  | nil => rfl
  | cons a rest => simp [applyDeltaEncoding]

theorem rowToSample_ok (pt : String → Except String Int) (r : Row) (smp : Sample)
    (h : rowToSample pt r = .ok smp) :
    pt r.created_at = .ok smp.epoch ∧ smp.volume = r.volume.getD 0 := by
  unfold rowToSample at h
  cases hp : pt r.created_at with
  | error msg => rw [hp] at h; exact absurd h (by simp)
  | ok ep => rw [hp] at h; cases h; exact ⟨rfl, rfl⟩

theorem blockToSample_ok (pt : String → Except String Int) (b : Block) (smp : Sample)
    (h : blockToSample pt b = .ok smp) :
    pt b.createdAt = .ok smp.epoch ∧ smp.volume = ((b.transactions.getD []).length : Int) := by
  unfold blockToSample at h
  cases hp : pt b.createdAt with
  | error msg => rw [hp] at h; exact absurd h (by simp)
  | ok ep => rw [hp] at h; cases h; exact ⟨rfl, rfl⟩

theorem samplesOfRows_ok (pt : String → Except String Int) :
    ∀ (rows : List Row) (samples : List Sample),
      samplesOfRows pt rows = .ok samples →
      samples.length = rows.length ∧
      ∀ i (hi : i < rows.length) (hj : i < samples.length),
        rowToSample pt (rows.get ⟨i, hi⟩) = .ok (samples.get ⟨i, hj⟩) := by
  intro rows
  induction rows with
  | nil =>
      intro samples h
      cases h
      exact ⟨rfl, fun i hi hj => absurd hi (by simp)⟩
  | cons r rest ih =>
      intro samples h
      unfold samplesOfRows at h
      cases hr : rowToSample pt r with
      | error msg => rw [hr] at h; exact absurd h (by simp)
      | ok smp =>
          rw [hr] at h
          cases ho : samplesOfRows pt rest with
          | error msg => rw [ho] at h; exact absurd h (by simp)
          | ok others =>
              rw [ho] at h
              cases h
              obtain ⟨hlen, hget⟩ := ih others ho
              refine ⟨by simp [hlen], ?_⟩
              intro i hi hj
              cases i with
              | zero => simpa using hr
              | succ k =>
                  have hk : k < rest.length := by simpa using hi
                  have hk2 : k < others.length := by simpa using hj
                  simpa using hget k hk hk2

theorem samplesOfBlocks_ok (pt : String → Except String Int) :
    ∀ (blocks : List Block) (samples : List Sample),
      samplesOfBlocks pt blocks = .ok samples →
      samples.length = blocks.length ∧
      ∀ i (hi : i < blocks.length) (hj : i < samples.length),
        blockToSample pt (blocks.get ⟨i, hi⟩) = .ok (samples.get ⟨i, hj⟩) := by
  intro blocks
  induction blocks with
  | nil =>
      intro samples h
      cases h
      exact ⟨rfl, fun i hi hj => absurd hi (by simp)⟩
  | cons b rest ih =>
      intro samples h
      unfold samplesOfBlocks at h
      cases hb : blockToSample pt b with
      | error msg => rw [hb] at h; exact absurd h (by simp)
      | ok smp =>
          rw [hb] at h
          cases ho : samplesOfBlocks pt rest with
          | error msg => rw [ho] at h; exact absurd h (by simp)
          | ok others =>
              rw [ho] at h
              cases h
              obtain ⟨hlen, hget⟩ := ih others ho
              refine ⟨by simp [hlen], ?_⟩
              intro i hi hj
              cases i with
              | zero => simpa using hb
              | succ k =>
                  have hk : k < rest.length := by simpa using hi
                  have hk2 : k < others.length := by simpa using hj
                  simpa using hget k hk hk2

theorem cacheBranch_of_cache_error (env : Env) (s e : Option Int) (msg : String)
    (h : getDataFromCache env s e = .error msg) : cacheBranch env s e = .error msg := by
  unfold cacheBranch
  rw [h]

theorem cacheBranch_of_cache_empty (env : Env) (s e : Option Int)
    (h : getDataFromCache env s e = .ok []) : cacheBranch env s e = .ok none := by
  unfold cacheBranch
  rw [h]
  rfl

theorem getEncodedBlocks_of_not_hit (env : Env) (s e : Option Int)
    (h : cacheBranch env s e = .ok none ∨ ∃ msg, cacheBranch env s e = .error msg) :
    getEncodedBlocks env s e = fallbackOnly env s e := by
  unfold getEncodedBlocks
  rcases h with h | ⟨msg, h⟩ <;> rw [h]

theorem fallbackOnly_congr (env env₂ : Env) (s e : Option Int)
    (hapi : env₂.api = env.api) (hpt : env₂.parseTime = env.parseTime) :
    fallbackOnly env₂ s e = fallbackOnly env s e := by
  unfold fallbackOnly getDataFromApi
  rw [hapi, hpt]

theorem cacheBranch_hit_shape (env : Env) (s e : Option Int) (v : Envelope)
    (h : cacheBranch env s e = .ok (some v)) :
    ∃ samples, v = ⟨some true, applyDeltaEncoding samples⟩ := by
  unfold cacheBranch at h
  cases hc : getDataFromCache env s e with
  | error msg => rw [hc] at h; exact absurd h (by simp)
  | ok rows =>
      rw [hc] at h
      dsimp only at h
      by_cases hlen : rows.length > 0
      · rw [if_pos hlen] at h
        cases hs : samplesOfRows env.parseTime rows with
        | error msg => rw [hs] at h; exact absurd h (by simp)
        | ok samples =>
            rw [hs] at h
            cases h
            exact ⟨samples, rfl⟩
      · rw [if_neg hlen] at h
        exact absurd h (by simp)

theorem fallbackOnly_ok_shape (env : Env) (s e : Option Int) (v : Envelope)
    (h : fallbackOnly env s e = .ok v) :
    ∃ samples, getDataFromApi env s e = .ok samples ∧
      v = ⟨none, applyDeltaEncoding samples⟩ := by
  unfold fallbackOnly at h
  cases ha : getDataFromApi env s e with
  | error msg => rw [ha] at h; exact absurd h (by simp)
  | ok samples =>
      rw [ha] at h
      cases h
      exact ⟨samples, rfl, rfl⟩

/-- C2: when the cache read raises a storage error or returns zero rows,
the orchestrator runs the API fallback with the same requested
`start`/`end`, the cache error never reaches the caller, and a cache-read
error and an empty cache result produce identical responses (given the
same API and time conversion). -/
theorem c2_cache_error_and_miss_fall_back (env env' : Env) (s e : Option Int)
    (h : (∃ m, getDataFromCache env s e = .error m) ∨ getDataFromCache env s e = .ok [])
    (h' : (∃ m, getDataFromCache env' s e = .error m) ∨ getDataFromCache env' s e = .ok [])
    (hapi : env.api = env'.api) (hpt : env.parseTime = env'.parseTime) :
    getEncodedBlocks env s e = fallbackOnly env s e ∧
    getEncodedBlocks env s e = getEncodedBlocks env' s e := by
  have notHit : ∀ env₀ : Env,
      (∃ m, getDataFromCache env₀ s e = .error m) ∨ getDataFromCache env₀ s e = .ok [] →
      getEncodedBlocks env₀ s e = fallbackOnly env₀ s e := by
    intro env₀ h₀
    apply getEncodedBlocks_of_not_hit
    rcases h₀ with ⟨m, hm⟩ | hm
    · exact Or.inr ⟨m, cacheBranch_of_cache_error env₀ s e m hm⟩
    · exact Or.inl (cacheBranch_of_cache_empty env₀ s e hm)
  have e1 := notHit env h
  have e2 := notHit env' h'
  refine ⟨e1, ?_⟩
  rw [e1, e2]
  exact fallbackOnly_congr env' env s e hapi hpt

/-- C3: when the cache read succeeds with at least one row and all rows
convert, the response is `isCached: true` merged with the delta-encoded
series; row `i` becomes the sample whose `epoch` is the unix-epoch
conversion of `created_at` and whose `volume` is the row volume with NULL
defaulting to 0; the encoded count equals the row count. -/
theorem c3_cache_hit_envelope (env : Env) (s e : Option Int)
    (rows : List Row) (samples : List Sample)
    (hc : getDataFromCache env s e = .ok rows) (hne : rows ≠ [])
    (hs : samplesOfRows env.parseTime rows = .ok samples) :
    getEncodedBlocks env s e = .ok ⟨some true, applyDeltaEncoding samples⟩ ∧
    (applyDeltaEncoding samples).count = rows.length ∧
    samples.length = rows.length ∧
    ∀ i (hi : i < rows.length) (hj : i < samples.length),
      env.parseTime (rows.get ⟨i, hi⟩).created_at = .ok ((samples.get ⟨i, hj⟩)).epoch ∧
      ((samples.get ⟨i, hj⟩)).volume = ((rows.get ⟨i, hi⟩)).volume.getD 0 := by
  have hlen : rows.length > 0 := List.length_pos.mpr hne
  have hcb : cacheBranch env s e = .ok (some ⟨some true, applyDeltaEncoding samples⟩) := by
    unfold cacheBranch
    rw [hc]
    dsimp only
    rw [if_pos hlen, hs]
  obtain ⟨hslen, hget⟩ := samplesOfRows_ok env.parseTime rows samples hs
  refine ⟨?_, ?_, hslen, ?_⟩
  · unfold getEncodedBlocks
    rw [hcb]
  · rw [applyDeltaEncoding_count, hslen]
  · intro i hi hj
    exact rowToSample_ok env.parseTime (rows.get ⟨i, hi⟩) (samples.get ⟨i, hj⟩)
      (hget i hi hj)

/-- C4: a successful response never carries `isCached: false`; it carries
`isCached: true` exactly when the cache branch produced it, and carries no
`isCached` field at all when the API fallback served the request. -/
theorem c4_isCached_asymmetry (env : Env) (s e : Option Int) (envl : Envelope)
    (h : getEncodedBlocks env s e = .ok envl) :
    envl.isCached ≠ some false ∧
    (cacheBranch env s e = .ok (some envl) → envl.isCached = some true) ∧
    ((∀ v, cacheBranch env s e ≠ .ok (some v)) → envl.isCached = none) := by
  cases hcb : cacheBranch env s e with
  | ok ov =>
      cases ov with
      | some v =>
          have hv : getEncodedBlocks env s e = .ok v := by
            unfold getEncodedBlocks
            rw [hcb]
          have hev : envl = v := by
            rw [hv] at h
            injection h with h2
            exact h2.symm
          obtain ⟨samples, hshape⟩ := cacheBranch_hit_shape env s e v hcb
          have hic : envl.isCached = some true := by rw [hev, hshape]
          exact ⟨by rw [hic]; simp, fun _ => hic, fun hno => absurd rfl (hno v)⟩
      | none =>
          have hfo : getEncodedBlocks env s e = fallbackOnly env s e :=
            getEncodedBlocks_of_not_hit env s e (Or.inl hcb)
          obtain ⟨samples, _, hshape⟩ :=
            fallbackOnly_ok_shape env s e envl (hfo ▸ h)
          have hic : envl.isCached = none := by rw [hshape]
          exact ⟨by rw [hic]; simp, fun hEq => absurd hEq (by simp), fun _ => hic⟩
  | error msg =>
      have hfo : getEncodedBlocks env s e = fallbackOnly env s e :=
        getEncodedBlocks_of_not_hit env s e (Or.inr ⟨msg, hcb⟩)
      obtain ⟨samples, _, hshape⟩ :=
        fallbackOnly_ok_shape env s e envl (hfo ▸ h)
      have hic : envl.isCached = none := by rw [hshape]
      exact ⟨by rw [hic]; simp, fun hEq => Except.noConfusion hEq, fun _ => hic⟩

/-- C7: when the cache branch raises and the API fallback also fails, the
caller receives exactly the 500 `{ error, details }` result carrying the
API failure's message, and no success response. -/
theorem c7_double_failure (env : Env) (s e : Option Int) (ce ae : String)
    (h1 : cacheBranch env s e = .error ce)
    (h2 : getDataFromApi env s e = .error ae) :
    getEncodedBlocks env s e = .serverError "Failed to fetch block data" ae ∧
    ∀ b, getEncodedBlocks env s e ≠ .ok b := by
  have hfo : getEncodedBlocks env s e = fallbackOnly env s e :=
    getEncodedBlocks_of_not_hit env s e (Or.inr ⟨ce, h1⟩)
  have hres : getEncodedBlocks env s e = .serverError "Failed to fetch block data" ae := by
    rw [hfo]
    unfold fallbackOnly
    rw [h2]
  refine ⟨hres, fun b hb => ?_⟩
  rw [hres] at hb
  exact Result.noConfusion hb

/-- C10: any exception raised inside the cache branch of
`getEncodedBlocks` is absorbed and the handler proceeds to the API
fallback with the same requested range; a failing timestamp conversion on
cache-hit rows is such an exception. -/
theorem c10_cache_branch_exception_absorbed (env : Env) (s e : Option Int) :
    (∀ msg, cacheBranch env s e = .error msg →
      getEncodedBlocks env s e = fallbackOnly env s e) ∧
    (∀ rows msg, getDataFromCache env s e = .ok rows → rows.length > 0 →
      samplesOfRows env.parseTime rows = .error msg →
      cacheBranch env s e = .error msg) := by
  constructor
  · intro msg hmsg
    exact getEncodedBlocks_of_not_hit env s e (Or.inr ⟨msg, hmsg⟩)
  · intro rows msg hc hlen hs
    unfold cacheBranch
    rw [hc]
    dsimp only
    rw [if_pos hlen, hs]

/-- C5: with two valid bounds the cache reader returns exactly the rows
whose `block_id` lies in `[start, end]` inclusive, ordered ascending by
`block_id`; with a missing or invalid bound it returns the 100 rows of
smallest `block_id`, ordered ascending. -/
theorem c5_cache_query_semantics (env : Env) (rows : List Row)
    (h : env.cache = .ok rows) :
    (∀ a b, ∃ l, getDataFromCache env (some a) (some b) = .ok l ∧
      List.Perm l (rows.filter (rowInRange a b)) ∧ List.Sorted rowLe l ∧
      ∀ r, r ∈ l ↔ (r ∈ rows ∧ a ≤ r.block_id ∧ r.block_id ≤ b)) ∧
    (∀ s e, s = none ∨ e = none → ∃ l rest,
      getDataFromCache env s e = .ok l ∧
      l.length = min 100 rows.length ∧
      List.Sorted rowLe l ∧
      List.Perm (l ++ rest) rows ∧
      ∀ x, x ∈ l → ∀ y, y ∈ rest → rowLe x y) := by
  constructor
  · intro a b
    refine ⟨List.insertionSort rowLe (rows.filter (rowInRange a b)), ?_, ?_, ?_, ?_⟩
    · unfold getDataFromCache
      rw [h]
    · exact List.perm_insertionSort rowLe _
    · exact List.sorted_insertionSort rowLe _
    · intro r
      rw [(List.perm_insertionSort rowLe _).mem_iff, List.mem_filter]
      simp [rowInRange, and_assoc]
  · intro s e hse
    refine ⟨(List.insertionSort rowLe rows).take 100,
      (List.insertionSort rowLe rows).drop 100, ?_, ?_, ?_, ?_, ?_⟩
    · unfold getDataFromCache
      rw [h]
      rcases hse with hs | he
      · subst hs
        rfl
      · subst he
        cases s <;> rfl
    · rw [List.length_take, (List.perm_insertionSort rowLe rows).length_eq]
    · exact List.Pairwise.sublist (List.take_sublist 100 _)
        (List.sorted_insertionSort rowLe rows)
    · rw [List.take_append_drop]
      exact List.perm_insertionSort rowLe rows
    · have hp : List.Pairwise rowLe
          ((List.insertionSort rowLe rows).take 100 ++
            (List.insertionSort rowLe rows).drop 100) := by
        rw [List.take_append_drop]
        exact List.sorted_insertionSort rowLe rows
      exact fun x hx y hy => (List.pairwise_append.mp hp).2.2 x hx y hy

/-- C6: the API client requests exactly `[start, end]` when both bounds
are valid and the fixed default `[1, 100]` otherwise; its result depends
only on the remote answer at that requested range; each returned record
becomes the sample whose `epoch` is the unix-epoch conversion of
`createdAt` and whose `volume` is the length of its transaction list,
with a missing list counted as 0. -/
theorem c6_api_range_and_conversion (env : Env) (s e : Option Int) :
    (∀ a b, s = some a → e = some b → apiRequestRange s e = (a, b)) ∧
    ((s = none ∨ e = none) → apiRequestRange s e = (1, 100)) ∧
    (∀ env₂ : Env, env₂.parseTime = env.parseTime →
      env₂.api (apiRequestRange s e).1 (apiRequestRange s e).2 =
        env.api (apiRequestRange s e).1 (apiRequestRange s e).2 →
      getDataFromApi env₂ s e = getDataFromApi env s e) ∧
    (∀ blocks samples,
      env.api (apiRequestRange s e).1 (apiRequestRange s e).2 = .ok (some blocks) →
      samplesOfBlocks env.parseTime blocks = .ok samples →
      getDataFromApi env s e = .ok samples ∧
      samples.length = blocks.length ∧
      ∀ i (hi : i < blocks.length) (hj : i < samples.length),
        env.parseTime ((blocks.get ⟨i, hi⟩)).createdAt = .ok ((samples.get ⟨i, hj⟩)).epoch ∧
        ((samples.get ⟨i, hj⟩)).volume =
          ((((blocks.get ⟨i, hi⟩)).transactions.getD []).length : Int)) := by
  refine ⟨?_, ?_, ?_, ?_⟩
  · intro a b hs he
    subst hs
    subst he
    rfl
  · intro hse
    rcases hse with hs | he
    · subst hs
      rfl
    · subst he
      cases s <;> rfl
  · intro env₂ hpt hap
    unfold getDataFromApi
    rw [hap, hpt]
  · intro blocks samples hapi hsm
    obtain ⟨hlen, hget⟩ := samplesOfBlocks_ok env.parseTime blocks samples hsm
    refine ⟨?_, hlen, ?_⟩
    · unfold getDataFromApi
      rw [hapi]
      exact hsm
    · intro i hi hj
      exact blockToSample_ok env.parseTime (blocks.get ⟨i, hi⟩) (samples.get ⟨i, hj⟩)
        (hget i hi hj)

/-- C9: a successful remote status whose body is not an array makes
`getDataFromApi` throw the `.map` TypeError instead of returning an empty
sample list, so when the request reaches the fallback the caller gets the
500 error, never an empty encoded series. -/
theorem c9_non_array_body_throws (env : Env) (s e : Option Int)
    (h : env.api (apiRequestRange s e).1 (apiRequestRange s e).2 = .ok none) :
    getDataFromApi env s e = .error "data.map is not a function" ∧
    ((∀ v, cacheBranch env s e ≠ .ok (some v)) →
      getEncodedBlocks env s e =
        .serverError "Failed to fetch block data" "data.map is not a function" ∧
      ∀ b, getEncodedBlocks env s e ≠ .ok b) := by
  have hda : getDataFromApi env s e = .error "data.map is not a function" := by
    unfold getDataFromApi
    rw [h]
  refine ⟨hda, fun hno => ?_⟩
  have hnh : cacheBranch env s e = .ok none ∨ ∃ msg, cacheBranch env s e = .error msg := by
    cases hcb : cacheBranch env s e with
    | ok ov =>
        cases ov with
        | some v => exact absurd hcb (hno v)
        | none => exact Or.inl rfl
    | error msg => exact Or.inr ⟨msg, rfl⟩
  have hres : getEncodedBlocks env s e =
      .serverError "Failed to fetch block data" "data.map is not a function" := by
    rw [getEncodedBlocks_of_not_hit env s e hnh]
    unfold fallbackOnly
    rw [hda]
  refine ⟨hres, fun b hb => ?_⟩
  rw [hres] at hb
  exact Result.noConfusion hb

/-- Cache contents for the ordering counterexample: ascending `block_id`
but descending timestamps. -/
def rowsC8 : List Row := [⟨1, some 5, "a"⟩, ⟨2, some 3, "b"⟩]

/-- Environment for the ordering counterexample: the cache hits and the
timestamp conversion maps the second row to an earlier epoch. -/
def envC8 : Env :=
  ⟨.ok rowsC8, fun _ _ => .error "down", fun t => .ok (if t = "a" then 10 else 4)⟩

/-- C8 counterexample: the code orders cache rows by `block_id`, not by
epoch, so a successful response can decode to samples whose epochs
strictly decrease: the claimed ordering invariant fails at this input. -/
theorem c8_counterexample :
    getEncodedBlocks envC8 (some 1) (some 2) =
      .ok ⟨some true, applyDeltaEncoding [⟨10, 5⟩, ⟨4, 3⟩]⟩ ∧
    decodeDeltaEncoding (applyDeltaEncoding [⟨10, 5⟩, ⟨4, 3⟩]) =
      .ok [⟨10, 5⟩, ⟨4, 3⟩] ∧
    ¬ List.Chain' epochLe [⟨10, 5⟩, ⟨4, 3⟩] :=
  ⟨by decide, by rfl, by
    intro hch
    rw [List.chain'_cons] at hch
    exact absurd hch.1 (by decide)⟩

/-- C8 amended: every successful response is the delta encoding of the
sample sequence produced by the serving path, and it decodes to a
sequence non-decreasing in `epoch` whenever that path sequence is
non-decreasing in `epoch`; the code itself does not enforce epoch
ordering. -/
theorem c8_amended_order_preserved (env : Env) (s e : Option Int) (envl : Envelope)
    (h : getEncodedBlocks env s e = .ok envl) :
    (∃ samples, envl.series = applyDeltaEncoding samples) ∧
    ∀ samples, envl.series = applyDeltaEncoding samples →
      List.Chain' epochLe samples →
      ∃ ds, decodeDeltaEncoding envl.series = .ok ds ∧ List.Chain' epochLe ds := by
  constructor
  · cases hcb : cacheBranch env s e with
    | ok ov =>
        cases ov with
        | some v =>
            have hv : getEncodedBlocks env s e = .ok v := by
              unfold getEncodedBlocks
              rw [hcb]
            have hev : envl = v := by
              rw [hv] at h
              injection h with h2
              exact h2.symm
            obtain ⟨samples, hshape⟩ := cacheBranch_hit_shape env s e v hcb
            exact ⟨samples, by rw [hev, hshape]⟩
        | none =>
            have hfo := getEncodedBlocks_of_not_hit env s e (Or.inl hcb)
            obtain ⟨samples, _, hshape⟩ := fallbackOnly_ok_shape env s e envl (hfo ▸ h)
            exact ⟨samples, by rw [hshape]⟩
    | error msg =>
        have hfo := getEncodedBlocks_of_not_hit env s e (Or.inr ⟨msg, hcb⟩)
        obtain ⟨samples, _, hshape⟩ := fallbackOnly_ok_shape env s e envl (hfo ▸ h)
        exact ⟨samples, by rw [hshape]⟩
  · intro samples hser hchain
    refine ⟨samples, ?_, hchain⟩
    rw [hser]
    exact decode_encode samples

/-- A timestamp conversion that always succeeds with epoch 0. -/
def ptZero : String → Except String Int := fun _ => .ok 0

/-- A remote endpoint that answers every range with an empty array. -/
def apiEmpty : Int → Int → Except String (Option (List Block)) := fun _ _ => .ok (some [])

/-- Environment whose cache read raises a storage error. -/
def envCacheDown : Env := ⟨.error "cache down", apiEmpty, ptZero⟩

/-- Environment whose cache holds no rows. -/
def envCacheEmpty : Env := ⟨.ok [], apiEmpty, ptZero⟩

/-- A single concrete cache row. -/
def rowOne : Row := ⟨1, none, "t"⟩

/-- Environment whose cache holds exactly `rowOne`. -/
def envOneRow : Env := ⟨.ok [rowOne], apiEmpty, ptZero⟩

/-- Environment where both the cache and the remote endpoint fail. -/
def envBothDown : Env := ⟨.error "cache boom", fun _ _ => .error "api down", ptZero⟩

/-- Environment whose cache hits but whose timestamp conversion throws. -/
def envBadTime : Env := ⟨.ok [⟨1, some 2, "x"⟩], apiEmpty, fun _ => .error "bad date"⟩

/-- Environment whose cache fails and whose remote body is not an array. -/
def envNonArray : Env := ⟨.error "cache down", fun _ _ => .ok none, ptZero⟩

/-- A single concrete remote block record without a transaction list. -/
def blkOne : Block := ⟨7, "7", none, 10, "t"⟩

/-- Environment whose remote endpoint returns exactly `blkOne`. -/
def envOneBlock : Env := ⟨.ok [], fun _ _ => .ok (some [blkOne]), ptZero⟩

/-- Witness for C2 at a failing cache and an empty cache. -/
theorem c2_witness :
    getEncodedBlocks envCacheDown none none = fallbackOnly envCacheDown none none ∧
    getEncodedBlocks envCacheDown none none = getEncodedBlocks envCacheEmpty none none :=
  c2_cache_error_and_miss_fall_back envCacheDown envCacheEmpty none none
    (Or.inl ⟨"cache down", rfl⟩) (Or.inr rfl) rfl rfl

/-- Witness for C3 at a one-row cache hit. -/
theorem c3_witness :
    getEncodedBlocks envOneRow (some 1) (some 1) =
      .ok ⟨some true, applyDeltaEncoding [⟨0, 0⟩]⟩ ∧
    (applyDeltaEncoding [(⟨0, 0⟩ : Sample)]).count = [rowOne].length ∧
    [(⟨0, 0⟩ : Sample)].length = [rowOne].length ∧
    (∀ i (hi : i < [rowOne].length) (hj : i < [(⟨0, 0⟩ : Sample)].length),
      envOneRow.parseTime (([rowOne].get ⟨i, hi⟩)).created_at =
        .ok ((([(⟨0, 0⟩ : Sample)].get ⟨i, hj⟩))).epoch ∧
      ((([(⟨0, 0⟩ : Sample)].get ⟨i, hj⟩))).volume =
        ((([rowOne].get ⟨i, hi⟩))).volume.getD 0) :=
  c3_cache_hit_envelope envOneRow (some 1) (some 1) [rowOne] [⟨0, 0⟩] rfl (by decide) rfl

/-- Witness for C4 at a one-row cache hit. -/
theorem c4_witness :
    ((⟨some true, applyDeltaEncoding [⟨0, 0⟩]⟩ : Envelope)).isCached ≠ some false ∧
    (cacheBranch envOneRow (some 1) (some 1) =
        .ok (some ⟨some true, applyDeltaEncoding [⟨0, 0⟩]⟩) →
      ((⟨some true, applyDeltaEncoding [⟨0, 0⟩]⟩ : Envelope)).isCached = some true) ∧
    ((∀ v, cacheBranch envOneRow (some 1) (some 1) ≠ .ok (some v)) →
      ((⟨some true, applyDeltaEncoding [⟨0, 0⟩]⟩ : Envelope)).isCached = none) :=
  c4_isCached_asymmetry envOneRow (some 1) (some 1)
    ⟨some true, applyDeltaEncoding [⟨0, 0⟩]⟩ rfl

/-- Witness for C5 at the one-row cache. -/
theorem c5_witness :
    (∃ l, getDataFromCache envOneRow (some 0) (some 5) = .ok l ∧
      List.Perm l ([rowOne].filter (rowInRange 0 5)) ∧ List.Sorted rowLe l ∧
      ∀ r, r ∈ l ↔ (r ∈ [rowOne] ∧ 0 ≤ r.block_id ∧ r.block_id ≤ 5)) ∧
    (∃ l rest, getDataFromCache envOneRow none (some 3) = .ok l ∧
      l.length = min 100 [rowOne].length ∧
      List.Sorted rowLe l ∧
      List.Perm (l ++ rest) [rowOne] ∧
      ∀ x, x ∈ l → ∀ y, y ∈ rest → rowLe x y) :=
  ⟨(c5_cache_query_semantics envOneRow [rowOne] rfl).1 0 5,
   (c5_cache_query_semantics envOneRow [rowOne] rfl).2 none (some 3) (Or.inl rfl)⟩

/-- Witness for C6 at a one-record remote answer. -/
theorem c6_witness :
    apiRequestRange (some 2) (some 9) = (2, 9) ∧
    apiRequestRange none (some 9) = (1, 100) ∧
    (getDataFromApi envOneBlock (some 2) (some 9) = .ok [⟨0, 0⟩] ∧
      [(⟨0, 0⟩ : Sample)].length = [blkOne].length ∧
      ∀ i (hi : i < [blkOne].length) (hj : i < [(⟨0, 0⟩ : Sample)].length),
        envOneBlock.parseTime (([blkOne].get ⟨i, hi⟩)).createdAt =
          .ok ((([(⟨0, 0⟩ : Sample)].get ⟨i, hj⟩))).epoch ∧
        ((([(⟨0, 0⟩ : Sample)].get ⟨i, hj⟩))).volume =
          (((([blkOne].get ⟨i, hi⟩)).transactions.getD []).length : Int)) :=
  ⟨(c6_api_range_and_conversion envOneBlock (some 2) (some 9)).1 2 9 rfl rfl,
   (c6_api_range_and_conversion envOneBlock none (some 9)).2.1 (Or.inl rfl),
   (c6_api_range_and_conversion envOneBlock (some 2) (some 9)).2.2.2 [blkOne] [⟨0, 0⟩] rfl rfl⟩

/-- Witness for C7 at an environment where cache and API both fail. -/
theorem c7_witness :
    getEncodedBlocks envBothDown none none =
      .serverError "Failed to fetch block data" "api down" ∧
    ∀ b, getEncodedBlocks envBothDown none none ≠ .ok b :=
  c7_double_failure envBothDown none none "cache boom" "api down" rfl rfl

/-- Witness for C9 at a remote body that is not an array. -/
theorem c9_witness :
    getDataFromApi envNonArray none none = .error "data.map is not a function" ∧
    (getEncodedBlocks envNonArray none none =
        .serverError "Failed to fetch block data" "data.map is not a function" ∧
      ∀ b, getEncodedBlocks envNonArray none none ≠ .ok b) :=
  ⟨(c9_non_array_body_throws envNonArray none none rfl).1,
   (c9_non_array_body_throws envNonArray none none rfl).2
     (fun _ hv => Except.noConfusion hv)⟩

/-- Witness for C10 at a cache hit whose timestamp conversion throws. -/
theorem c10_witness :
    getEncodedBlocks envBadTime none none = fallbackOnly envBadTime none none ∧
    cacheBranch envBadTime none none = .error "bad date" :=
  ⟨(c10_cache_branch_exception_absorbed envBadTime none none).1 "bad date" rfl,
   (c10_cache_branch_exception_absorbed envBadTime none none).2
     [⟨1, some 2, "x"⟩] "bad date" rfl (by decide) rfl⟩

/-- Witness for the amended C8 at an empty-cache fallback response. -/
theorem c8_amended_witness :
    (∃ samples,
      ((⟨none, applyDeltaEncoding []⟩ : Envelope)).series = applyDeltaEncoding samples) ∧
    ∀ samples,
      ((⟨none, applyDeltaEncoding []⟩ : Envelope)).series = applyDeltaEncoding samples →
      List.Chain' epochLe samples →
      ∃ ds, decodeDeltaEncoding ((⟨none, applyDeltaEncoding []⟩ : Envelope)).series =
        .ok ds ∧ List.Chain' epochLe ds :=
  c8_amended_order_preserved envCacheEmpty none none ⟨none, applyDeltaEncoding []⟩ rfl

end MemLens
